import Mathlib

/-!
# Verification of the Utah pollinator habitat scoring engine

Shallow embedding of the Python sources of the `utah-scoring-engine`
repository, together with theorems settling the specification claims.

Embedded modules:
* `src/scoring_v2.py` — the evidence-based property scorer
  (`PropertyData`, `score_floral_resources`, `score_nesting_habitat`,
  `score_connectivity`, `score_management`, `calculate_impervious_penalty`,
  `get_grade`, `get_confidence`, `calculate_data_completeness`,
  `score_property`).
* `src/scoring_config.py` — the model-configuration tables (the parts the
  claims touch).
* `src/core/engine.py` — `HabitatGrade`, `Location`, `CacheManager`,
  `PollinatorEngine.fetch_data` / `score`.

Modelling conventions:
* Python floats are modelled as `ℚ`; Python ints as `Int` (or `Nat` for
  lengths); wall-clock instants (`datetime.utcnow()`) as `Int` seconds
  passed explicitly to each stateful operation; the constructor's
  `ttl_hours` therefore corresponds to `ttl_hours * 3600` seconds.
* Python dicts are association lists `List (String × α)` (unique keys by
  construction) with Python assignment semantics (`dictSet`: replace the
  key's binding in place when present, append otherwise), lookup
  (`dictGet`) and deletion (`dictRemove`).
* Raised exceptions are `Except.error` carrying `str(e)`.
* Free-form metadata that no claim inspects (recommendation texts,
  ISO timestamps, `FactorResult` lists) is not modelled.
-/

/-! ## Python dict operations on association lists -/

/-- Python `d.get(k)` / `d[k]` lookup: value of the first binding of `k`. -/
def dictGet {α : Type} : List (String × α) → String → Option α
  | [], _ => none
  | p :: t, k => if p.1 = k then some p.2 else dictGet t k

/-- Python `d[k] = v`: overwrite the key's binding in place when present,
append a new binding otherwise (insertion-order semantics). -/
def dictSet {α : Type} : List (String × α) → String → α → List (String × α)
  | [], k, v => [(k, v)]
  | p :: t, k, v => if p.1 = k then (k, v) :: t else p :: dictSet t k v

/-- Python `del d[k]`: drop the key's binding (keys of a dict are unique,
so dropping every binding of `k` is the same operation). -/
def dictRemove {α : Type} (c : List (String × α)) (k : String) :
    List (String × α) :=
  c.filter (fun p => p.1 != k)

theorem dictGet_dictSet_self {α : Type} (c : List (String × α)) (k : String)
    (v : α) : dictGet (dictSet c k v) k = some v := by
  induction c with
  | nil => simp [dictGet, dictSet]
  | cons p t ih =>
    by_cases h : p.1 = k
    · simp [dictGet, dictSet, h]
    · simpa [dictGet, dictSet, h] using ih

theorem dictGet_dictSet_ne {α : Type} (c : List (String × α)) (k k' : String)
    (v : α) (h : k' ≠ k) : dictGet (dictSet c k v) k' = dictGet c k' := by
  have hkk' : ¬ k = k' := fun he => h he.symm
  induction c with
  | nil => simp only [dictSet, dictGet, if_neg hkk']
  | cons p t ih =>
    by_cases hp : p.1 = k
    · have hp' : ¬ p.1 = k' := by rw [hp]; exact hkk'
      simp only [dictSet, if_pos hp, dictGet, if_neg hkk', if_neg hp']
    · simp only [dictSet, if_neg hp, dictGet]
      by_cases hk' : p.1 = k'
      · simp only [if_pos hk']
      · simp only [if_neg hk']; exact ih

theorem dictGet_dictRemove_self {α : Type} (c : List (String × α))
    (k : String) : dictGet (dictRemove c k) k = none := by
  induction c with
  | nil => rfl
  | cons p t ih =>
    by_cases h : p.1 = k
    · simpa [dictRemove, h] using ih
    · simpa [dictRemove, List.filter_cons, h, dictGet] using ih

theorem dictGet_dictRemove_ne {α : Type} (c : List (String × α))
    (k k' : String) (h : k' ≠ k) :
    dictGet (dictRemove c k) k' = dictGet c k' := by
  induction c with
  | nil => rfl
  | cons p t ih =>
    by_cases hp : p.1 = k
    · have hk' : ¬ p.1 = k' := by rw [hp]; exact fun he => h he.symm
      simp only [dictRemove, List.filter_cons] at *
      rw [if_neg (by simp [hp])]
      rw [dictGet]
      simp only [if_neg hk']
      exact ih
    · simp only [dictRemove, List.filter_cons] at *
      rw [if_pos (by simp [hp])]
      rw [dictGet, dictGet]
      by_cases hk' : p.1 = k'
      · simp only [if_pos hk']
      · simp only [if_neg hk']; exact ih

/-! ## `src/scoring_v2.py` — data model -/

/-- `Season` enum from `scoring_v2.py`. -/
inductive Season where
  | spring
  | summer
  | fall
deriving DecidableEq, Repr

/-- `PlantInventory` dataclass: user-reported plant inventory. -/
structure PlantInventory where
  species : String
  count : Int := 1
  bloom_seasons : List Season := []
  is_native : Bool := true
  is_milkweed : Bool := false
deriving Repr

/-- `PropertyData` dataclass: all data needed to score a property
(defaults as in the source). -/
structure PropertyData where
  lat : ℚ
  lng : ℚ
  grid_hash : String := ""
  plants : List PlantInventory := []
  estimated_flower_coverage_pct : ℚ := 0
  has_bare_ground : Bool := false
  bare_ground_sqft : ℚ := 0
  has_dead_wood : Bool := false
  has_brush_pile : Bool := false
  has_bee_hotel : Bool := false
  leaves_stems_over_winter : Bool := false
  neighbors_in_program : Int := 0
  green_space_within_500m : ℚ := 0
  distance_to_nearest_habitat_m : ℚ := 1000
  uses_pesticides : Bool := false
  pesticide_frequency : String := "never"
  mowing_frequency : String := "weekly"
  lot_size_sqft : ℚ := 5000
  impervious_surface_pct : ℚ := 30
deriving Repr

/-- `ScoreBreakdown` dataclass (the recommendation payloads — free-form
dicts no claim inspects — are not modelled). -/
structure ScoreBreakdown where
  floral_score : ℚ := 0
  nesting_score : ℚ := 0
  connectivity_score : ℚ := 0
  connectivity_pioneer : ℚ := 0
  management_score : ℚ := 0
  floral_diversity : ℚ := 0
  floral_coverage : ℚ := 0
  floral_spring : ℚ := 0
  floral_summer : ℚ := 0
  floral_fall : ℚ := 0
  floral_milkweed_bonus : ℚ := 0
  nesting_ground : ℚ := 0
  nesting_cavity : ℚ := 0
  nesting_undisturbed : ℚ := 0
  impervious_penalty : ℚ := 0
  raw_score : ℚ := 0
  final_score : ℚ := 0
  grade : String := "F"
  confidence : String := "low"
  data_completeness : ℚ := 0
deriving Repr

/-! ## `src/scoring_v2.py` — category scorers

Each Python scorer returns a `scores` dict with a fixed key set; each is
embedded as a structure with those keys as fields. -/

/-- Result dict of `score_floral_resources`. -/
structure FloralScores where
  diversity : ℚ
  coverage : ℚ
  spring : ℚ
  summer : ℚ
  fall : ℚ
  milkweed_bonus : ℚ
  total : ℚ
deriving Repr

/-- `score_floral_resources` (35 points max). -/
def score_floral_resources (data : PropertyData) : FloralScores :=
  let plants := data.plants
  let native_species : ℕ := (plants.filter (fun p => p.is_native)).length
  let total_species : ℕ := plants.length
  let diversity0 : ℚ :=
    if native_species ≥ 10 then 12
    else if native_species ≥ 7 then 10
    else if native_species ≥ 5 then 8
    else if native_species ≥ 3 then 5
    else if native_species ≥ 1 then 2
    else 0
  let non_native_bonus : ℚ :=
    min (((total_species : ℚ) - (native_species : ℚ)) * (1 / 2)) 2
  let diversity := min (diversity0 + non_native_bonus) 12
  let coverage_pct := data.estimated_flower_coverage_pct
  let coverage : ℚ :=
    if coverage_pct ≥ 30 then 8
    else if coverage_pct ≥ 20 then 6
    else if coverage_pct ≥ 10 then 4
    else if coverage_pct ≥ 5 then 2
    else 0
  let spring : ℚ :=
    if plants.any (fun p => p.bloom_seasons.contains Season.spring) then 2 else 0
  let summer : ℚ :=
    if plants.any (fun p => p.bloom_seasons.contains Season.summer) then 2 else 0
  let fall : ℚ :=
    if plants.any (fun p => p.bloom_seasons.contains Season.fall) then 6 else 0
  let milkweed_count : Int :=
    ((plants.filter (fun p => p.is_milkweed)).map (fun p => p.count)).sum
  let milkweed_bonus : ℚ :=
    if milkweed_count ≥ 5 then 5
    else if milkweed_count ≥ 3 then 4
    else if milkweed_count ≥ 1 then 3
    else 0
  { diversity := diversity
    coverage := coverage
    spring := spring
    summer := summer
    fall := fall
    milkweed_bonus := milkweed_bonus
    total := min (diversity + coverage + spring + summer + fall + milkweed_bonus) 35 }

/-- Result dict of `score_nesting_habitat`. -/
structure NestingScores where
  ground : ℚ
  cavity : ℚ
  undisturbed : ℚ
  total : ℚ
deriving Repr

/-- `score_nesting_habitat` (30 points max). -/
def score_nesting_habitat (data : PropertyData) : NestingScores :=
  let ground : ℚ :=
    if data.has_bare_ground then
      if data.bare_ground_sqft ≥ 50 then 10
      else if data.bare_ground_sqft ≥ 25 then 7
      else if data.bare_ground_sqft ≥ 10 then 5
      else 3
    else 0
  let cavity_features : ℚ :=
    (if data.has_dead_wood then 4 else 0) +
    (if data.has_bee_hotel then 3 else 0) +
    (if data.has_brush_pile then 3 else 0)
  let cavity := min cavity_features 10
  let undisturbed0 : ℚ :=
    (if data.leaves_stems_over_winter then 5 else 0) +
    (if data.mowing_frequency = "monthly" ∨ data.mowing_frequency = "rarely" then 3
     else if data.mowing_frequency = "biweekly" then 1
     else 0) +
    (if data.has_brush_pile then 2 else 0)
  let undisturbed := min undisturbed0 10
  { ground := ground
    cavity := cavity
    undisturbed := undisturbed
    total := ground + cavity + undisturbed }

/-- Result dict of `score_connectivity`. -/
structure ConnectivityScores where
  neighbors : ℚ
  green_space : ℚ
  pioneer_bonus : ℚ
  total : ℚ
deriving Repr

/-- `score_connectivity` (20 points max). -/
def score_connectivity (data : PropertyData) : ConnectivityScores :=
  let n := data.neighbors_in_program
  let pioneer_bonus : ℚ := if n = 0 then 8 else if n ≤ 2 then 4 else 0
  let neighbors : ℚ :=
    if n = 0 then 0
    else if n ≤ 2 then (n : ℚ) * 2
    else if n ≥ 5 then 10
    else if n ≥ 3 then 7
    else 5
  let green_pct := data.green_space_within_500m
  let green_space : ℚ :=
    if green_pct ≥ 30 then 10
    else if green_pct ≥ 20 then 7
    else if green_pct ≥ 10 then 5
    else if green_pct ≥ 5 then 3
    else 2
  { neighbors := neighbors
    green_space := green_space
    pioneer_bonus := pioneer_bonus
    total := min (neighbors + green_space + pioneer_bonus) 20 }

/-- Result dict of `score_management`. -/
structure ManagementScores where
  pesticide_free : ℚ
  native_proportion : ℚ
  total : ℚ
deriving Repr

/-- `score_management` (15 points max). Note the source condition
`if not data.uses_pesticides or data.pesticide_frequency == "never"`:
a property that does not use pesticides gets the full credit whatever
its `pesticide_frequency` field says. -/
def score_management (data : PropertyData) : ManagementScores :=
  let pesticide_free : ℚ :=
    if data.uses_pesticides = false ∨ data.pesticide_frequency = "never" then 8
    else if data.pesticide_frequency = "rarely" then 5
    else if data.pesticide_frequency = "sometimes" then 2
    else 0
  let total_plants : ℕ := data.plants.length
  let native_proportion : ℚ :=
    if total_plants > 0 then
      let native_pct : ℚ :=
        ((data.plants.filter (fun p => p.is_native)).length : ℚ) /
          (total_plants : ℚ) * 100
      if native_pct ≥ 80 then 7
      else if native_pct ≥ 60 then 5
      else if native_pct ≥ 40 then 3
      else if native_pct ≥ 20 then 1
      else 0
    else 0
  { pesticide_free := pesticide_free
    native_proportion := native_proportion
    total := pesticide_free + native_proportion }

/-- `calculate_impervious_penalty`: 0 up to the 22% threshold, then
`-min((pct - 22) * 0.35, 10)`. -/
def calculate_impervious_penalty (data : PropertyData) : ℚ :=
  if data.impervious_surface_pct ≤ 22 then 0
  else -(min ((data.impervious_surface_pct - 22) * (35 / 100)) 10)

/-- `calculate_data_completeness`: fraction of a fixed ten-signal
checklist, as a percentage. -/
def calculate_data_completeness (data : PropertyData) : ℚ :=
  let fields_provided : ℕ :=
    (if data.plants.length > 0 then 1 else 0) +
    (if data.estimated_flower_coverage_pct > 0 then 1 else 0) +
    (if data.has_bare_ground ∨ data.bare_ground_sqft > 0 then 1 else 0) +
    (if data.has_dead_wood ∨ data.has_bee_hotel ∨ data.has_brush_pile then 1 else 0) +
    (if data.leaves_stems_over_winter then 1 else 0) +
    (if data.mowing_frequency ≠ "weekly" then 1 else 0) +
    (if data.pesticide_frequency ≠ "never" then 1 else 0) +
    (if data.lot_size_sqft ≠ 5000 then 1 else 0) +
    (if data.impervious_surface_pct ≠ 30 then 1 else 0) +
    (if data.neighbors_in_program > 0 then 1 else 0)
  ((fields_provided : ℚ) / 10) * 100

/-- `get_grade`: numeric score to letter grade. -/
def get_grade (score : ℚ) : String :=
  if score ≥ 90 then "A+"
  else if score ≥ 80 then "A"
  else if score ≥ 70 then "B"
  else if score ≥ 60 then "C"
  else if score ≥ 50 then "D"
  else "F"

/-- `get_confidence`: confidence level from data completeness. -/
def get_confidence (completeness : ℚ) : String :=
  if completeness ≥ 70 then "high"
  else if completeness ≥ 40 then "medium"
  else "low"

/-- `score_property`: the main scoring function of `scoring_v2.py`. -/
def score_property (data : PropertyData) : ScoreBreakdown :=
  let floral := score_floral_resources data
  let nesting := score_nesting_habitat data
  let connectivity := score_connectivity data
  let management := score_management data
  let impervious := calculate_impervious_penalty data
  let raw : ℚ := floral.total + nesting.total + connectivity.total + management.total
  let final : ℚ := max 0 (min 100 (raw + impervious))
  let completeness := calculate_data_completeness data
  { floral_score := floral.total
    floral_diversity := floral.diversity
    floral_coverage := floral.coverage
    floral_spring := floral.spring
    floral_summer := floral.summer
    floral_fall := floral.fall
    floral_milkweed_bonus := floral.milkweed_bonus
    nesting_score := nesting.total
    nesting_ground := nesting.ground
    nesting_cavity := nesting.cavity
    nesting_undisturbed := nesting.undisturbed
    connectivity_score := connectivity.total
    management_score := management.total
    impervious_penalty := impervious
    raw_score := raw
    final_score := final
    grade := get_grade final
    data_completeness := completeness
    confidence := get_confidence completeness }

/-! ## `src/scoring_config.py` — model configuration

The configuration dict `SCORING_MODELS` is a nested heterogeneous dict;
the fields the claims touch are embedded as structures.  The full `2.0.0`
entry carries the per-category tables; the `2.1.0-beta` entry overrides
`weights` and `floral_config.fall_points` ("inherit rest from 2.0.0" per
its source comment). -/

/-- `floral_config` sub-dict of a scoring model (scalar point values). -/
structure FloralConfig where
  diversity_max : ℚ
  coverage_max : ℚ
  spring_points : ℚ
  summer_points : ℚ
  fall_points : ℚ
  milkweed_max : ℚ
deriving Repr

/-- `weights` sub-dict of a scoring model. -/
structure ModelWeights where
  floral : ℚ
  nesting : ℚ
  connectivity : ℚ
  management : ℚ
deriving Repr

/-- `SCORING_MODELS["2.0.0"]["floral_config"]` scalar values. -/
def floral_config_2_0_0 : FloralConfig :=
  { diversity_max := 12
    coverage_max := 8
    spring_points := 2
    summer_points := 2
    fall_points := 6
    milkweed_max := 5 }

/-- `SCORING_MODELS["2.0.0"]["weights"]`. -/
def weights_2_0_0 : ModelWeights :=
  { floral := 35, nesting := 30, connectivity := 20, management := 15 }

/-- `SCORING_MODELS["2.1.0-beta"]["floral_config"]`: overrides
`fall_points = 8`, inheriting the rest from `2.0.0`. -/
def floral_config_2_1_0_beta : FloralConfig :=
  { floral_config_2_0_0 with fall_points := 8 }

/-- `SCORING_MODELS["2.1.0-beta"]["weights"]`. -/
def weights_2_1_0_beta : ModelWeights :=
  { floral := 40, nesting := 25, connectivity := 20, management := 15 }

/-- `ACTIVE_MODEL_VERSION` from `scoring_config.py`. -/
def ACTIVE_MODEL_VERSION : String := "2.0.0"

/-- `get_model_version` from `scoring_config.py`. -/
def get_model_version : String := ACTIVE_MODEL_VERSION

/-- `get_active_model`'s floral configuration: `SCORING_MODELS` resolved
at the active version (which is `"2.0.0"`). -/
def active_floral_config : FloralConfig := floral_config_2_0_0

/-- Modelled from the spec: "The weight table, tier boundaries, and point
values are sourced from an external, swappable model configuration";
seasonal floral points taken from a `FloralConfig` instead of the
hardcoded constants of `score_floral_resources`.  Used only to compare
the source behaviour against the spec's words (claim about
configuration-driven scoring); everything except the seasonal point
values is as in the source. -/
def score_floral_resources_spec (cfg : FloralConfig) (data : PropertyData) :
    FloralScores :=
  let plants := data.plants
  let native_species : ℕ := (plants.filter (fun p => p.is_native)).length
  let total_species : ℕ := plants.length
  let diversity0 : ℚ :=
    if native_species ≥ 10 then cfg.diversity_max
    else if native_species ≥ 7 then 10
    else if native_species ≥ 5 then 8
    else if native_species ≥ 3 then 5
    else if native_species ≥ 1 then 2
    else 0
  let non_native_bonus : ℚ :=
    min (((total_species : ℚ) - (native_species : ℚ)) * (1 / 2)) 2
  let diversity := min (diversity0 + non_native_bonus) cfg.diversity_max
  let coverage_pct := data.estimated_flower_coverage_pct
  let coverage : ℚ :=
    if coverage_pct ≥ 30 then cfg.coverage_max
    else if coverage_pct ≥ 20 then 6
    else if coverage_pct ≥ 10 then 4
    else if coverage_pct ≥ 5 then 2
    else 0
  let spring : ℚ :=
    if plants.any (fun p => p.bloom_seasons.contains Season.spring) then
      cfg.spring_points else 0
  let summer : ℚ :=
    if plants.any (fun p => p.bloom_seasons.contains Season.summer) then
      cfg.summer_points else 0
  let fall : ℚ :=
    if plants.any (fun p => p.bloom_seasons.contains Season.fall) then
      cfg.fall_points else 0
  let milkweed_count : Int :=
    ((plants.filter (fun p => p.is_milkweed)).map (fun p => p.count)).sum
  let milkweed_bonus : ℚ :=
    if milkweed_count ≥ 5 then cfg.milkweed_max
    else if milkweed_count ≥ 3 then 4
    else if milkweed_count ≥ 1 then 3
    else 0
  { diversity := diversity
    coverage := coverage
    spring := spring
    summer := summer
    fall := fall
    milkweed_bonus := milkweed_bonus
    total := min (diversity + coverage + spring + summer + fall + milkweed_bonus) 35 }

/-! ## `src/core/engine.py` — data model -/

/-- `HabitatGrade` enum: letter, description and minimum score per tier
(the letter/description strings are carried by `letter` below). -/
inductive HabitatGrade where
  | aPlus
  | a
  | b
  | c
  | d
  | f
deriving DecidableEq, Repr

/-- `HabitatGrade.min_score` per tier. -/
def HabitatGrade.min_score : HabitatGrade → ℚ
  | .aPlus => 90
  | .a => 80
  | .b => 70
  | .c => 60
  | .d => 50
  | .f => 0

/-- `HabitatGrade.letter` per tier. -/
def HabitatGrade.letter : HabitatGrade → String
  | .aPlus => "A+"
  | .a => "A"
  | .b => "B"
  | .c => "C"
  | .d => "D"
  | .f => "F"

/-- `HabitatGrade.from_score`: scan the enum members in declaration order
(thresholds 90, 80, 70, 60, 50, 0), returning the first tier whose
`min_score` is at most the score; the final `return cls.F` fallback
covers negative scores. -/
def HabitatGrade.from_score (score : ℚ) : HabitatGrade :=
  if score ≥ 90 then .aPlus
  else if score ≥ 80 then .a
  else if score ≥ 70 then .b
  else if score ≥ 60 then .c
  else if score ≥ 50 then .d
  else if score ≥ 0 then .f
  else .f

/-- `Location` dataclass.  `grid_hash` is carried as a plain field: when
empty it would be derived by `_compute_grid_hash` (decimal rounding and
float formatting, which no claim in scope depends on), so the derivation
itself is left unmodelled and locations are used through their
`grid_hash`. -/
structure Location where
  lat : ℚ
  lng : ℚ
  name : String := ""
  address : String := ""
  grid_hash : String := ""
deriving Repr, DecidableEq

/-- Provider payloads (`Dict[str, Any]` in the source) modelled as
string-keyed, string-valued mappings — enough structure for the claims,
which only move payloads around whole and build `{"error": msg}`. -/
def Payload : Type := List (String × String)

instance : DecidableEq Payload := by
  unfold Payload
  infer_instance

/-- The `{"error": str(e)}` payload recorded for a failed fetch. -/
def errorPayload (msg : String) : Payload := [("error", msg)]

/-! ## `src/core/engine.py` — `CacheManager` -/

/-- One value of the `CacheManager._cache` dict:
`{"data": ..., "timestamp": ...}`. -/
structure CacheEntry where
  data : Payload
  timestamp : Int
deriving DecidableEq

/-- `CacheManager.stats` counters. -/
structure CacheStats where
  hits : ℕ := 0
  misses : ℕ := 0
  evictions : ℕ := 0
deriving Repr, DecidableEq

/-- `CacheManager` state.  `ttl_hours` is kept in hours as in the source;
entry timestamps and `now` are `Int` seconds, so the TTL comparison uses
`ttl_hours * 3600`. -/
structure CacheManager where
  ttl_hours : Int := 24
  max_entries : ℕ := 1000
  cache : List (String × CacheEntry) := []
  stats : CacheStats := {}

/-- `CacheManager._make_key`: `f"{source}:{grid_hash}"`. -/
def CacheManager.make_key (source grid_hash : String) : String :=
  source ++ ":" ++ grid_hash

/-- `CacheManager.get`: fresh entry → payload and a hit; expired entry →
delete it and fall through to a miss; absent → miss. -/
def CacheManager.get (cm : CacheManager) (source : String) (location : Location)
    (now : Int) : CacheManager × Option Payload :=
  let key := CacheManager.make_key source location.grid_hash
  match dictGet cm.cache key with
  | some entry =>
      if now - entry.timestamp < cm.ttl_hours * 3600 then
        ({ cm with stats := { cm.stats with hits := cm.stats.hits + 1 } },
         some entry.data)
      else
        ({ cm with
            cache := dictRemove cm.cache key
            stats := { cm.stats with misses := cm.stats.misses + 1 } },
         none)
  | none =>
      ({ cm with stats := { cm.stats with misses := cm.stats.misses + 1 } },
       none)

/-- Key of `min(self._cache.keys(), key=lambda k: ...timestamp)`:
the first key attaining the minimal timestamp.  `none` on an empty store
(where the Python `min` raises `ValueError`; reachable only with
`max_entries = 0`). -/
def oldestKey : List (String × CacheEntry) → Option String
  | [] => none
  | (k, e) :: t =>
      some (t.foldl
        (fun acc p => if p.2.timestamp < acc.2 then (p.1, p.2.timestamp) else acc)
        (k, e.timestamp)).1

/-- The store after the capacity check of `CacheManager.set` and before
the insert: evict the oldest entry when at or above capacity. -/
def CacheManager.preInsert (cm : CacheManager) :
    List (String × CacheEntry) × CacheStats :=
  if cm.cache.length ≥ cm.max_entries then
    match oldestKey cm.cache with
    | some k =>
        (dictRemove cm.cache k,
         { cm.stats with evictions := cm.stats.evictions + 1 })
    | none => (cm.cache, cm.stats)
  else (cm.cache, cm.stats)

/-- `CacheManager.set`: capacity check (eviction of the globally oldest
entry) before inserting the new entry under `source:grid_hash`. -/
def CacheManager.set (cm : CacheManager) (source : String) (location : Location)
    (data : Payload) (now : Int) : CacheManager :=
  let pre := cm.preInsert
  let key := CacheManager.make_key source location.grid_hash
  { cm with
      cache := dictSet pre.1 key { data := data, timestamp := now }
      stats := pre.2 }

/-! ## `src/core/engine.py` — `PollinatorEngine` -/

/-- A registered data source's `fetch`; raising is `Except.error str(e)`. -/
def SourceFetch : Type := Location → Except String Payload

/-- The engine's per-call data bundle: the Python dict
`{"_location": location, <source>: <payload>, ...}`, with the always
present `_location` value carried as a separate field (its value is a
`Location`, not a payload). -/
structure Bundle where
  location : Location
  entries : List (String × Payload) := []

/-- A minimal `ScoringResult` as produced by a registered algorithm's
`calculate` (factor lists, recommendations, timestamp and metadata are
free-form values no claim inspects). -/
structure ScoringResult where
  location : Location
  total_score : ℚ
  max_possible : ℚ
  percentage : ℚ
  grade : HabitatGrade
  algorithm : String
  tool : String
deriving Repr

/-- A registered scoring algorithm's `calculate`. -/
def AlgoCalculate : Type := Location → Bundle → ScoringResult

/-- `PollinatorEngine` state: source registry, algorithm registry, cache. -/
structure PollinatorEngine where
  sources : List (String × SourceFetch) := []
  algorithms : List (String × AlgoCalculate) := []
  cache : CacheManager := {}

/-- The per-source loop body of `PollinatorEngine.fetch_data`: skip
unregistered names; serve from cache on a fresh hit; otherwise fetch,
caching the result on success and recording `{"error": str(e)}` on
failure. -/
def fetchLoop (srcs : List (String × SourceFetch)) (loc : Location)
    (now : Int) :
    List String → CacheManager → List (String × Payload) →
    CacheManager × List (String × Payload)
  | [], cm, bundle => (cm, bundle)
  | name :: rest, cm, bundle =>
      match dictGet srcs name with
      | none => fetchLoop srcs loc now rest cm bundle
      | some fetch =>
          match CacheManager.get cm name loc now with
          | (cm1, some cached) =>
              fetchLoop srcs loc now rest cm1 (dictSet bundle name cached)
          | (cm1, none) =>
              match fetch loc with
              | .ok result =>
                  fetchLoop srcs loc now rest
                    (CacheManager.set cm1 name loc result now)
                    (dictSet bundle name result)
              | .error e =>
                  fetchLoop srcs loc now rest cm1
                    (dictSet bundle name (errorPayload e))

/-- `PollinatorEngine.fetch_data`.  `sources = sources or list(...)`: a
`None` or empty requested list falls back to all registered sources. -/
def PollinatorEngine.fetch_data (eng : PollinatorEngine) (loc : Location)
    (sourcesArg : Option (List String)) (now : Int) :
    PollinatorEngine × Bundle :=
  let requested :=
    match sourcesArg with
    | none => eng.sources.map (fun p => p.1)
    | some l => if l = [] then eng.sources.map (fun p => p.1) else l
  let r := fetchLoop eng.sources loc now requested eng.cache []
  ({ eng with cache := r.1 }, { location := loc, entries := r.2 })

/-- `PollinatorEngine.score`: look up the algorithm, raising
`ValueError(f"Unknown algorithm: {algorithm}")` when absent (the engine
state is returned alongside to make the state effect of the call
explicit); otherwise fetch all sources and run the algorithm. -/
def PollinatorEngine.score (eng : PollinatorEngine) (loc : Location)
    (algorithm : String) (now : Int) :
    PollinatorEngine × Except String ScoringResult :=
  match dictGet eng.algorithms algorithm with
  | none => (eng, .error ("Unknown algorithm: " ++ algorithm))
  | some algo =>
      let r := eng.fetch_data loc none now
      (r.1, .ok (algo loc r.2))

/-! ## Claim C1 — final score is the clamp of the category sum plus penalty -/

/-- C1: for every `PropertyData` input, `score_property` returns a final
score equal to the clamp of (floral total + nesting total + connectivity
total + management total + impervious penalty) to `[0, 100]`; in
particular `final_score ∈ [0, 100]` for every input. -/
theorem score_property_final_score_clamped (data : PropertyData) :
    (score_property data).final_score =
      max 0 (min 100
        ((score_floral_resources data).total +
         (score_nesting_habitat data).total +
         (score_connectivity data).total +
         (score_management data).total +
         calculate_impervious_penalty data)) ∧
    0 ≤ (score_property data).final_score ∧
    (score_property data).final_score ≤ 100 := by
  refine ⟨rfl, ?_, ?_⟩
  · exact le_max_left 0 _
  · exact max_le (by norm_num) (min_le_left 100 _)

/-- C1 witness: the clamp equation and the bounds at a concrete input
(the empty yard of the source's own test block). -/
theorem score_property_final_score_clamped_witness :
    (score_property { lat := 40666 / 1000, lng := -111897 / 1000 }).final_score =
      max 0 (min 100
        ((score_floral_resources { lat := 40666 / 1000, lng := -111897 / 1000 }).total +
         (score_nesting_habitat { lat := 40666 / 1000, lng := -111897 / 1000 }).total +
         (score_connectivity { lat := 40666 / 1000, lng := -111897 / 1000 }).total +
         (score_management { lat := 40666 / 1000, lng := -111897 / 1000 }).total +
         calculate_impervious_penalty { lat := 40666 / 1000, lng := -111897 / 1000 })) ∧
    0 ≤ (score_property { lat := 40666 / 1000, lng := -111897 / 1000 }).final_score ∧
    (score_property { lat := 40666 / 1000, lng := -111897 / 1000 }).final_score ≤ 100 :=
  score_property_final_score_clamped { lat := 40666 / 1000, lng := -111897 / 1000 }

/-! ## Claim C8 — grade monotonicity -/

/-- Tier height of the letter grades emitted by `get_grade`
(higher = better tier). -/
def gradeRank (g : String) : ℕ :=
  if g = "A+" then 5
  else if g = "A" then 4
  else if g = "B" then 3
  else if g = "C" then 2
  else if g = "D" then 1
  else 0

/-- Tier height of a `HabitatGrade` (higher = better tier). -/
def HabitatGrade.rank : HabitatGrade → ℕ
  | .aPlus => 5
  | .a => 4
  | .b => 3
  | .c => 2
  | .d => 1
  | .f => 0

/-- The tier index a score lands in for the common 90/80/70/60/50
threshold ladder of `get_grade` and `HabitatGrade`. -/
def gradeTierIndex (s : ℚ) : ℕ :=
  if s ≥ 90 then 5
  else if s ≥ 80 then 4
  else if s ≥ 70 then 3
  else if s ≥ 60 then 2
  else if s ≥ 50 then 1
  else 0

theorem gradeRank_get_grade (s : ℚ) : gradeRank (get_grade s) = gradeTierIndex s := by
  unfold get_grade gradeTierIndex
  split_ifs <;> rfl

theorem rank_from_score (s : ℚ) :
    (HabitatGrade.from_score s).rank = gradeTierIndex s := by
  unfold HabitatGrade.from_score gradeTierIndex
  split_ifs <;> rfl

theorem gradeTierIndex_mono {s1 s2 : ℚ} (h : s1 ≤ s2) :
    gradeTierIndex s1 ≤ gradeTierIndex s2 := by
  unfold gradeTierIndex
  split_ifs <;> first | omega | (exfalso; linarith)

/-- Descending-threshold tier table of `HabitatGrade`, in enum
declaration order. -/
def gradeTiers : List (ℚ × HabitatGrade) :=
  [(90, .aPlus), (80, .a), (70, .b), (60, .c), (50, .d), (0, .f)]

/-- First tier (in table order) whose minimum threshold is at most the
score, terminating in the catch-all lowest tier. -/
def firstTier : List (ℚ × HabitatGrade) → ℚ → HabitatGrade
  | [], _ => .f
  | p :: rest, s => if p.1 ≤ s then p.2 else firstTier rest s

/-- C8: grade assignment is monotone for both grade functions of the
sources (`get_grade` in `scoring_v2.py`, `HabitatGrade.from_score` in
`core/engine.py`): a lower score never gets a strictly higher tier; and
`from_score` is exactly the first-matching-tier lookup over the
descending threshold table. -/
theorem grade_monotone (s1 s2 : ℚ) (h : s1 ≤ s2) :
    gradeRank (get_grade s1) ≤ gradeRank (get_grade s2) ∧
    (HabitatGrade.from_score s1).rank ≤ (HabitatGrade.from_score s2).rank ∧
    HabitatGrade.from_score s1 = firstTier gradeTiers s1 := by
  refine ⟨?_, ?_, ?_⟩
  · rw [gradeRank_get_grade, gradeRank_get_grade]
    exact gradeTierIndex_mono h
  · rw [rank_from_score, rank_from_score]
    exact gradeTierIndex_mono h
  · simp only [HabitatGrade.from_score, gradeTiers, firstTier, ge_iff_le]

/-- C8 witness: the monotonicity conclusions at 55 ≤ 72. -/
theorem grade_monotone_witness :
    gradeRank (get_grade 55) ≤ gradeRank (get_grade 72) ∧
    (HabitatGrade.from_score 55).rank ≤ (HabitatGrade.from_score 72).rank ∧
    HabitatGrade.from_score 55 = firstTier gradeTiers 55 :=
  grade_monotone 55 72 (by norm_num)

/-! ## Claim C7 — pesticide credit table -/

/-- A property that reports not using pesticides while its
`pesticide_frequency` field says `"often"`. -/
def pesticideFreeOftenYard : PropertyData :=
  { lat := 0, lng := 0, uses_pesticides := false,
    pesticide_frequency := "often" }

/-- C7 counterexample: the pesticide credit is **not** determined by
`pesticide_frequency` alone — with `uses_pesticides = False` and
frequency `"often"` the source awards 8, not the 0 the claim requires. -/
theorem pesticide_credit_not_frequency_alone :
    (score_management pesticideFreeOftenYard).pesticide_free = 8 ∧
    (score_management pesticideFreeOftenYard).pesticide_free ≠ 0 := by
  have h : (score_management pesticideFreeOftenYard).pesticide_free = 8 := rfl
  exact ⟨h, by rw [h]; norm_num⟩

/-- C7 (amended): the pesticide credit is 8 whenever the property does
not use pesticides or the frequency is `"never"`; when
`uses_pesticides` is true the frequency determines it — never 8,
rarely 5, sometimes 2, and 0 otherwise (in particular for often). -/
theorem score_management_pesticide_table (data : PropertyData) :
    (data.uses_pesticides = false →
      (score_management data).pesticide_free = 8) ∧
    (data.uses_pesticides = true →
      (data.pesticide_frequency = "never" →
        (score_management data).pesticide_free = 8) ∧
      (data.pesticide_frequency = "rarely" →
        (score_management data).pesticide_free = 5) ∧
      (data.pesticide_frequency = "sometimes" →
        (score_management data).pesticide_free = 2) ∧
      (data.pesticide_frequency ≠ "never" →
        data.pesticide_frequency ≠ "rarely" →
        data.pesticide_frequency ≠ "sometimes" →
        (score_management data).pesticide_free = 0)) := by
  constructor
  · intro h
    simp [score_management, h]
  · intro h
    refine ⟨?_, ?_, ?_, ?_⟩
    · intro hf
      simp [score_management, hf]
    · intro hf
      have h1 : ("rarely" : String) ≠ "never" := by decide
      simp [score_management, h, hf, h1]
    · intro hf
      have h1 : ("sometimes" : String) ≠ "never" := by decide
      have h2 : ("sometimes" : String) ≠ "rarely" := by decide
      simp [score_management, h, hf, h1, h2]
    · intro h1 h2 h3
      simp [score_management, h, h1, h2, h3]

/-- C7 (amended) witness: a pesticide-using yard with frequency
`"rarely"` gets credit 5, and the same data with frequency `"often"`
gets 0. -/
theorem score_management_pesticide_table_witness :
    (score_management { lat := 0, lng := 0, uses_pesticides := true,
                        pesticide_frequency := "rarely" }).pesticide_free = 5 ∧
    (score_management { lat := 0, lng := 0, uses_pesticides := true,
                        pesticide_frequency := "often" }).pesticide_free = 0 := by
  constructor
  · exact (score_management_pesticide_table
      { lat := 0, lng := 0, uses_pesticides := true,
        pesticide_frequency := "rarely" }).2 rfl |>.2.1 rfl
  · exact (score_management_pesticide_table
      { lat := 0, lng := 0, uses_pesticides := true,
        pesticide_frequency := "often" }).2 rfl |>.2.2.2
      (by decide) (by decide) (by decide)

/-! ## Claim C6 — configuration-driven, versioned scoring -/

/-- A yard with a single native fall-blooming plant. -/
def fallBloomYard : PropertyData :=
  { lat := 0, lng := 0,
    plants := [{ species := "Goldenrod", count := 1,
                 bloom_seasons := [Season.fall] }] }

/-- C6: the scoring computation does **not** take its point values from
the model configuration — `score_floral_resources` hardcodes fall = 6,
so substituting the `2.1.0-beta` configuration (fall = 8) changes the
configuration-driven scorer demanded by the spec but not the source's
scorer (and `ScoreBreakdown` carries no model-version field at all). -/
theorem scoring_ignores_model_config :
    floral_config_2_1_0_beta.fall_points = 8 ∧
    active_floral_config.fall_points = 6 ∧
    (score_floral_resources fallBloomYard).fall = 6 ∧
    (score_property fallBloomYard).floral_fall = 6 ∧
    (score_floral_resources_spec floral_config_2_1_0_beta fallBloomYard).fall = 8 ∧
    (score_floral_resources_spec floral_config_2_1_0_beta fallBloomYard).fall ≠
      (score_floral_resources fallBloomYard).fall := by
  have h1 : (score_floral_resources fallBloomYard).fall = 6 := rfl
  have h2 : (score_floral_resources_spec floral_config_2_1_0_beta
      fallBloomYard).fall = 8 := rfl
  refine ⟨rfl, rfl, h1, rfl, h2, ?_⟩
  rw [h1, h2]
  norm_num

/-! ## Cache helper lemmas -/

theorem foldlMin_spec (t : List (String × CacheEntry)) (acc : String × Int) :
    (t.foldl
        (fun a p => if p.2.timestamp < a.2 then (p.1, p.2.timestamp) else a)
        acc = acc ∨
      ∃ p ∈ t, t.foldl
        (fun a p => if p.2.timestamp < a.2 then (p.1, p.2.timestamp) else a)
        acc = (p.1, p.2.timestamp)) ∧
    (t.foldl
        (fun a p => if p.2.timestamp < a.2 then (p.1, p.2.timestamp) else a)
        acc).2 ≤ acc.2 ∧
    ∀ p ∈ t, (t.foldl
        (fun a p => if p.2.timestamp < a.2 then (p.1, p.2.timestamp) else a)
        acc).2 ≤ p.2.timestamp := by
  induction t generalizing acc with
  | nil => exact ⟨Or.inl rfl, le_refl _, by intro p hp; cases hp⟩
  | cons q t ih =>
    rw [List.foldl_cons]
    by_cases hq : q.2.timestamp < acc.2
    · rw [if_pos hq]
      obtain ⟨hmem, hle, hall⟩ := ih (q.1, q.2.timestamp)
      refine ⟨?_, ?_, ?_⟩
      · rcases hmem with h | ⟨p, hp, hr⟩
        · right; exact ⟨q, List.mem_cons_self q t, h⟩
        · right; exact ⟨p, List.mem_cons_of_mem q hp, hr⟩
      · exact le_trans hle (le_of_lt hq)
      · intro p hp
        rcases List.mem_cons.mp hp with h | h
        · rw [h]; exact hle
        · exact hall p h
    · rw [if_neg hq]
      obtain ⟨hmem, hle, hall⟩ := ih acc
      refine ⟨?_, hle, ?_⟩
      · rcases hmem with h | ⟨p, hp, hr⟩
        · exact Or.inl h
        · right; exact ⟨p, List.mem_cons_of_mem q hp, hr⟩
      · intro p hp
        rcases List.mem_cons.mp hp with h | h
        · rw [h]; exact le_trans hle (not_lt.mp hq)
        · exact hall p h

/-- `oldestKey` of a nonempty store names an entry whose timestamp is
minimal across all entries. -/
theorem oldestKey_spec (c : List (String × CacheEntry)) (hc : c ≠ []) :
    ∃ k e, oldestKey c = some k ∧ (k, e) ∈ c ∧
      ∀ p ∈ c, e.timestamp ≤ p.2.timestamp := by
  match c, hc with
  | (k0, e0) :: t, _ =>
    obtain ⟨hmem, hle, hall⟩ := foldlMin_spec t (k0, e0.timestamp)
    have hold : oldestKey ((k0, e0) :: t) =
        some (t.foldl
          (fun a p => if p.2.timestamp < a.2 then (p.1, p.2.timestamp) else a)
          (k0, e0.timestamp)).1 := rfl
    rcases hmem with h | ⟨p, hp, hpr⟩
    · refine ⟨_, e0, hold, ?_, ?_⟩
      · rw [h]; exact List.mem_cons_self _ _
      · intro p hp
        rcases List.mem_cons.mp hp with hh | hh
        · rw [hh]
        · have := hall p hh
          rw [h] at this
          exact this
    · refine ⟨_, p.2, hold, ?_, ?_⟩
      · rw [hpr]
        exact List.mem_cons_of_mem _ (by simpa using hp)
      · intro q hq
        have h2 : (t.foldl
            (fun a p => if p.2.timestamp < a.2 then (p.1, p.2.timestamp) else a)
            (k0, e0.timestamp)).2 = p.2.timestamp := by rw [hpr]
        rcases List.mem_cons.mp hq with hh | hh
        · rw [hh, ← h2]; exact hle
        · rw [← h2]; exact hall q hh

theorem dictRemove_eq_of_not_mem {α : Type} (c : List (String × α))
    (k : String) (h : k ∉ c.map Prod.fst) : dictRemove c k = c := by
  induction c with
  | nil => rfl
  | cons p t ih =>
    have hp : ¬ p.1 = k := by
      intro he
      exact h (by simp [he.symm])
    have ht : k ∉ t.map Prod.fst := fun hm => h (by simp [hm])
    unfold dictRemove at *
    rw [List.filter_cons, if_pos (by simp [hp]), ih ht]

/-- Deleting a present key from a dict with unique keys removes exactly
one entry. -/
theorem dictRemove_length {α : Type} (c : List (String × α)) (k : String)
    (e : α) (hnd : (c.map Prod.fst).Nodup) (hk : (k, e) ∈ c) :
    (dictRemove c k).length + 1 = c.length := by
  induction c with
  | nil => cases hk
  | cons p t ih =>
    rw [List.map_cons] at hnd
    obtain ⟨hhead, htail⟩ := List.nodup_cons.mp hnd
    rcases List.mem_cons.mp hk with hh | hh
    · have hp : p.1 = k := by rw [← hh]
      have hnott : k ∉ t.map Prod.fst := by rw [← hp]; exact hhead
      unfold dictRemove
      rw [List.filter_cons, if_neg (by simp [hp])]
      have := dictRemove_eq_of_not_mem t k hnott
      unfold dictRemove at this
      rw [this]
      simp
    · by_cases hp : p.1 = k
      · exfalso
        rw [hp] at hhead
        exact hhead (by simpa using List.mem_map_of_mem Prod.fst hh)
      · unfold dictRemove at *
        rw [List.filter_cons, if_pos (by simp [hp]), List.length_cons,
          List.length_cons, ← ih htail hh]

/-! ## Claim C4 — eviction policy of `CacheManager.set` -/

/-- C4: when `set` is called at or above capacity, exactly one entry —
one with the globally oldest write timestamp — is evicted and the
eviction counter increases by exactly 1 before the new entry is
inserted, regardless of whether the written key already exists; below
capacity nothing is evicted.  (The hypothesis `0 < max_entries` rules
out the degenerate store on which the Python `min` would raise.) -/
theorem cache_set_evicts_oldest (cm : CacheManager) (source : String)
    (loc : Location) (d : Payload) (now : Int)
    (hnd : (cm.cache.map Prod.fst).Nodup) (hmax : 0 < cm.max_entries) :
    (cm.max_entries ≤ cm.cache.length →
      ∃ k e, (k, e) ∈ cm.cache ∧
        (∀ p ∈ cm.cache, e.timestamp ≤ p.2.timestamp) ∧
        cm.preInsert =
          (dictRemove cm.cache k,
           { cm.stats with evictions := cm.stats.evictions + 1 }) ∧
        (dictRemove cm.cache k).length + 1 = cm.cache.length ∧
        (CacheManager.set cm source loc d now).stats.evictions =
          cm.stats.evictions + 1 ∧
        (CacheManager.set cm source loc d now).cache =
          dictSet (dictRemove cm.cache k)
            (CacheManager.make_key source loc.grid_hash)
            { data := d, timestamp := now }) ∧
    (cm.cache.length < cm.max_entries →
      (CacheManager.set cm source loc d now).stats.evictions =
        cm.stats.evictions ∧
      (CacheManager.set cm source loc d now).cache =
        dictSet cm.cache (CacheManager.make_key source loc.grid_hash)
          { data := d, timestamp := now }) := by
  constructor
  · intro hcap
    have hne : cm.cache ≠ [] := by
      intro h
      rw [h] at hcap
      simp at hcap
      omega
    obtain ⟨k, e, hold, hmem, hmin⟩ := oldestKey_spec cm.cache hne
    have hpre : cm.preInsert =
        (dictRemove cm.cache k,
         { cm.stats with evictions := cm.stats.evictions + 1 }) := by
      unfold CacheManager.preInsert
      rw [if_pos (by exact hcap), hold]
    refine ⟨k, e, hmem, hmin, hpre, dictRemove_length cm.cache k e hnd hmem, ?_, ?_⟩
    · unfold CacheManager.set
      rw [hpre]
    · unfold CacheManager.set
      rw [hpre]
  · intro hcap
    have hpre : cm.preInsert = (cm.cache, cm.stats) := by
      unfold CacheManager.preInsert
      rw [if_neg (by omega)]
    constructor
    · unfold CacheManager.set
      rw [hpre]
    · unfold CacheManager.set
      rw [hpre]

/-- A two-entry store at capacity 2 used to witness C4. -/
def capacityStore : CacheManager :=
  { ttl_hours := 24, max_entries := 2,
    cache := [("a:g", { data := [("v", "1")], timestamp := 5 }),
              ("b:g", { data := [("v", "2")], timestamp := 3 })],
    stats := {} }

/-- C4 witness: overwriting key `a:g` on `capacityStore` (at capacity)
evicts one globally-oldest entry and bumps the eviction counter. -/
theorem cache_set_evicts_oldest_witness :
    ∃ k e, (k, e) ∈ capacityStore.cache ∧
      (∀ p ∈ capacityStore.cache, e.timestamp ≤ p.2.timestamp) ∧
      capacityStore.preInsert =
        (dictRemove capacityStore.cache k,
         { capacityStore.stats with
             evictions := capacityStore.stats.evictions + 1 }) ∧
      (dictRemove capacityStore.cache k).length + 1 =
        capacityStore.cache.length ∧
      (CacheManager.set capacityStore "a"
          { lat := 0, lng := 0, grid_hash := "g" }
          [("v", "3")] 9).stats.evictions =
        capacityStore.stats.evictions + 1 ∧
      (CacheManager.set capacityStore "a"
          { lat := 0, lng := 0, grid_hash := "g" }
          [("v", "3")] 9).cache =
        dictSet (dictRemove capacityStore.cache k)
          (CacheManager.make_key "a" "g")
          { data := [("v", "3")], timestamp := 9 } :=
  (cache_set_evicts_oldest capacityStore "a"
      { lat := 0, lng := 0, grid_hash := "g" } [("v", "3")] 9
      (by simp [capacityStore]) (by simp [capacityStore])).1
    (by simp [capacityStore])

/-! ## Claim C5 — TTL semantics of `CacheManager.get` -/

/-- C5: a lookup returns the stored payload and counts a hit exactly for
an entry younger than the TTL; an expired entry is deleted and the
lookup is a miss; an absent entry is a miss; and an entry set at time
`T` is returned unchanged by any read before `T + ttl`. -/
theorem cache_get_ttl (cm : CacheManager) (source : String) (loc : Location)
    (now : Int) :
    (∀ entry,
      dictGet cm.cache (CacheManager.make_key source loc.grid_hash) =
        some entry →
      ((now - entry.timestamp < cm.ttl_hours * 3600 →
          CacheManager.get cm source loc now =
            ({ cm with stats := { cm.stats with hits := cm.stats.hits + 1 } },
             some entry.data)) ∧
       (cm.ttl_hours * 3600 ≤ now - entry.timestamp →
          (CacheManager.get cm source loc now).2 = none ∧
          (CacheManager.get cm source loc now).1.stats.misses =
            cm.stats.misses + 1 ∧
          (CacheManager.get cm source loc now).1.stats.hits = cm.stats.hits ∧
          dictGet (CacheManager.get cm source loc now).1.cache
            (CacheManager.make_key source loc.grid_hash) = none))) ∧
    (dictGet cm.cache (CacheManager.make_key source loc.grid_hash) = none →
      CacheManager.get cm source loc now =
        ({ cm with stats := { cm.stats with misses := cm.stats.misses + 1 } },
         none)) ∧
    (∀ (d : Payload) (T delta : Int), delta < cm.ttl_hours * 3600 →
      (CacheManager.get (CacheManager.set cm source loc d T) source loc
          (T + delta)).2 = some d) := by
  refine ⟨?_, ?_, ?_⟩
  · intro entry hent
    constructor
    · intro hfresh
      simp only [CacheManager.get, hent]
      rw [if_pos hfresh]
    · intro hexp
      simp only [CacheManager.get, hent, if_neg (not_lt.mpr hexp)]
      exact ⟨trivial, trivial, trivial, dictGet_dictRemove_self _ _⟩
  · intro habs
    simp only [CacheManager.get, habs]
  · intro d T delta hdelta
    have hset : dictGet (CacheManager.set cm source loc d T).cache
        (CacheManager.make_key source loc.grid_hash) =
        some { data := d, timestamp := T } := by
      unfold CacheManager.set
      exact dictGet_dictSet_self _ _ _
    have httl : (CacheManager.set cm source loc d T).ttl_hours =
        cm.ttl_hours := rfl
    simp only [CacheManager.get, hset, httl]
    rw [show T + delta - ({ data := d, timestamp := T } : CacheEntry).timestamp
        = delta by simp]
    rw [if_pos hdelta]

/-- A one-entry store used to witness C5. -/
def ttlStore : CacheManager :=
  { ttl_hours := 1, max_entries := 1000,
    cache := [("s:g", { data := [("v", "1")], timestamp := 100 })],
    stats := {} }

/-- C5 witness: on `ttlStore` a read 100 s after the write returns the
payload as a hit, and a freshly set entry is readable just before its
TTL elapses. -/
theorem cache_get_ttl_witness :
    CacheManager.get ttlStore "s" { lat := 0, lng := 0, grid_hash := "g" } 200 =
      ({ ttlStore with
          stats := { ttlStore.stats with hits := ttlStore.stats.hits + 1 } },
       some [("v", "1")]) ∧
    (CacheManager.get
        (CacheManager.set ttlStore "s" { lat := 0, lng := 0, grid_hash := "g" }
          [("v", "2")] 500)
        "s" { lat := 0, lng := 0, grid_hash := "g" } (500 + 3599)).2 =
      some [("v", "2")] := by
  constructor
  · exact ((cache_get_ttl ttlStore "s" { lat := 0, lng := 0, grid_hash := "g" }
      200).1 { data := [("v", "1")], timestamp := 100 } rfl).1
      (by norm_num [ttlStore])
  · exact (cache_get_ttl ttlStore "s" { lat := 0, lng := 0, grid_hash := "g" }
      0).2.2 [("v", "2")] 500 3599 (by norm_num [ttlStore])

/-! ## Claim C10 — a cache hit does not mutate the store -/

/-- C10: when `get` finds a fresh entry, the cache mapping is left
entirely unchanged (no payload or timestamp update, so reads never
extend a TTL or change which entry is oldest); only the hit counter
moves. -/
theorem cache_get_hit_no_mutation (cm : CacheManager) (source : String)
    (loc : Location) (now : Int) (entry : CacheEntry)
    (hent : dictGet cm.cache (CacheManager.make_key source loc.grid_hash) =
      some entry)
    (hfresh : now - entry.timestamp < cm.ttl_hours * 3600) :
    (CacheManager.get cm source loc now).1.cache = cm.cache ∧
    (CacheManager.get cm source loc now).2 = some entry.data ∧
    (CacheManager.get cm source loc now).1.ttl_hours = cm.ttl_hours ∧
    (CacheManager.get cm source loc now).1.max_entries = cm.max_entries ∧
    (CacheManager.get cm source loc now).1.stats.hits = cm.stats.hits + 1 ∧
    (CacheManager.get cm source loc now).1.stats.misses = cm.stats.misses ∧
    (CacheManager.get cm source loc now).1.stats.evictions =
      cm.stats.evictions := by
  simp only [CacheManager.get, hent]
  rw [if_pos hfresh]
  exact ⟨rfl, rfl, rfl, rfl, rfl, rfl, rfl⟩

/-- A one-entry store used to witness C10. -/
def hitStore : CacheManager :=
  { ttl_hours := 24, max_entries := 10,
    cache := [("w:g", { data := [("v", "7")], timestamp := 0 })],
    stats := {} }

/-- C10 witness: a fresh hit on `hitStore` leaves the store unchanged
and returns the payload. -/
theorem cache_get_hit_no_mutation_witness :
    (CacheManager.get hitStore "w" { lat := 0, lng := 0, grid_hash := "g" }
        50).1.cache = hitStore.cache ∧
    (CacheManager.get hitStore "w" { lat := 0, lng := 0, grid_hash := "g" }
        50).2 = some [("v", "7")] := by
  have h := cache_get_hit_no_mutation hitStore "w"
    { lat := 0, lng := 0, grid_hash := "g" } 50
    { data := [("v", "7")], timestamp := 0 } rfl (by norm_num [hitStore])
  exact ⟨h.1, h.2.1⟩

/-! ## Claim C3 — unknown algorithm is a configuration error -/

/-- C3: scoring with an unregistered algorithm name returns the
"Unknown algorithm" error and leaves the engine — cache contents and
hit/miss/eviction counters included — exactly as it was; no data fetch
happens and no partial `ScoringResult` is produced. -/
theorem score_unknown_algorithm (eng : PollinatorEngine) (loc : Location)
    (algorithm : String) (now : Int)
    (h : dictGet eng.algorithms algorithm = none) :
    PollinatorEngine.score eng loc algorithm now =
      (eng, Except.error ("Unknown algorithm: " ++ algorithm)) := by
  unfold PollinatorEngine.score
  rw [h]

/-- An engine with one registered source and no algorithms. -/
def engineNoAlgo : PollinatorEngine :=
  { sources := [("plants", fun _ => Except.ok [("n", "3")])],
    algorithms := [],
    cache := { ttl_hours := 24, max_entries := 1000,
               cache := [("plants:g", { data := [("n", "2")], timestamp := 0 })],
               stats := { hits := 1, misses := 2, evictions := 0 } } }

/-- C3 witness: on `engineNoAlgo` the unknown name `"homeowner_v1"`
errors with the engine state unchanged. -/
theorem score_unknown_algorithm_witness :
    PollinatorEngine.score engineNoAlgo
        { lat := 0, lng := 0, grid_hash := "g" } "homeowner_v1" 10 =
      (engineNoAlgo, Except.error ("Unknown algorithm: " ++ "homeowner_v1")) :=
  score_unknown_algorithm engineNoAlgo
    { lat := 0, lng := 0, grid_hash := "g" } "homeowner_v1" 10 rfl

/-! ## Engine loop helper lemmas -/

/-- No fresh (within-TTL) entry is stored under `key` at time `now`. -/
def NoFreshEntry (cm : CacheManager) (key : String) (now : Int) : Prop :=
  ∀ e, dictGet cm.cache key = some e → cm.ttl_hours * 3600 ≤ now - e.timestamp

theorem make_key_inj (s t g : String)
    (h : CacheManager.make_key s g = CacheManager.make_key t g) : s = t := by
  unfold CacheManager.make_key at h
  have hd : s.data ++ ":".data ++ g.data = t.data ++ ":".data ++ g.data := by
    have := congrArg String.data h
    simpa [String.data_append] using this
  exact String.ext (List.append_cancel_right (List.append_cancel_right hd))

theorem get_ttl_hours (cm : CacheManager) (s : String) (loc : Location)
    (now : Int) : (CacheManager.get cm s loc now).1.ttl_hours = cm.ttl_hours := by
  rcases h : dictGet cm.cache (CacheManager.make_key s loc.grid_hash) with _ | e
  · simp only [CacheManager.get, h]
  · simp only [CacheManager.get, h]
    split_ifs <;> rfl

theorem dictGet_get_cache_ne (cm : CacheManager) (s : String) (loc : Location)
    (now : Int) (K : String)
    (hK : K ≠ CacheManager.make_key s loc.grid_hash) :
    dictGet (CacheManager.get cm s loc now).1.cache K = dictGet cm.cache K := by
  rcases h : dictGet cm.cache (CacheManager.make_key s loc.grid_hash) with _ | e
  · simp only [CacheManager.get, h]
  · simp only [CacheManager.get, h]
    split_ifs
    · rfl
    · exact dictGet_dictRemove_ne _ _ _ hK

theorem noFresh_get (cm : CacheManager) (s : String) (loc : Location)
    (now : Int) (K : String) (h : NoFreshEntry cm K now) :
    NoFreshEntry (CacheManager.get cm s loc now).1 K now := by
  intro e he
  rw [get_ttl_hours]
  by_cases hK : K = CacheManager.make_key s loc.grid_hash
  · rw [hK] at he h
    rcases he0 : dictGet cm.cache (CacheManager.make_key s loc.grid_hash)
        with _ | e0
    · simp only [CacheManager.get, he0] at he
      exact absurd he (by simp)
    · have hexp := h e0 he0
      simp only [CacheManager.get, he0, if_neg (not_lt.mpr hexp)] at he
      rw [dictGet_dictRemove_self] at he
      cases he
  · rw [dictGet_get_cache_ne cm s loc now K hK] at he
    exact h e he

theorem absent_get (cm : CacheManager) (s : String) (loc : Location)
    (now : Int) (K : String) (h : dictGet cm.cache K = none) :
    dictGet (CacheManager.get cm s loc now).1.cache K = none := by
  by_cases hK : K = CacheManager.make_key s loc.grid_hash
  · rw [hK] at h ⊢
    simp only [CacheManager.get, h]
  · rw [dictGet_get_cache_ne cm s loc now K hK]
    exact h

theorem set_ttl_hours (cm : CacheManager) (s : String) (loc : Location)
    (d : Payload) (now : Int) :
    (CacheManager.set cm s loc d now).ttl_hours = cm.ttl_hours := rfl

theorem dictGet_set_cache_ne (cm : CacheManager) (s : String) (loc : Location)
    (d : Payload) (now : Int) (K : String)
    (hK : K ≠ CacheManager.make_key s loc.grid_hash) :
    dictGet (CacheManager.set cm s loc d now).cache K = dictGet cm.cache K ∨
    dictGet (CacheManager.set cm s loc d now).cache K = none := by
  have hcache : (CacheManager.set cm s loc d now).cache =
      dictSet cm.preInsert.1 (CacheManager.make_key s loc.grid_hash)
        { data := d, timestamp := now } := rfl
  rw [hcache, dictGet_dictSet_ne _ _ _ _ hK]
  rcases holds : oldestKey cm.cache with _ | k0
  · have hpre : cm.preInsert.1 = cm.cache := by
      unfold CacheManager.preInsert
      split_ifs
      · rw [holds]
      · rfl
    rw [hpre]
    exact Or.inl rfl
  · by_cases hcap : cm.cache.length ≥ cm.max_entries
    · have hpre : cm.preInsert.1 = dictRemove cm.cache k0 := by
        unfold CacheManager.preInsert
        rw [if_pos hcap, holds]
      rw [hpre]
      by_cases hk0 : K = k0
      · right
        rw [hk0]
        exact dictGet_dictRemove_self _ _
      · left
        exact dictGet_dictRemove_ne _ _ _ hk0
    · have hpre : cm.preInsert.1 = cm.cache := by
        unfold CacheManager.preInsert
        rw [if_neg hcap]
      rw [hpre]
      exact Or.inl rfl

theorem noFresh_set (cm : CacheManager) (s : String) (loc : Location)
    (d : Payload) (now : Int) (K : String)
    (hK : K ≠ CacheManager.make_key s loc.grid_hash)
    (h : NoFreshEntry cm K now) :
    NoFreshEntry (CacheManager.set cm s loc d now) K now := by
  intro e he
  rw [set_ttl_hours]
  rcases dictGet_set_cache_ne cm s loc d now K hK with hc | hc
  · rw [hc] at he
    exact h e he
  · rw [hc] at he
    cases he

theorem absent_set (cm : CacheManager) (s : String) (loc : Location)
    (d : Payload) (now : Int) (K : String)
    (hK : K ≠ CacheManager.make_key s loc.grid_hash)
    (h : dictGet cm.cache K = none) :
    dictGet (CacheManager.set cm s loc d now).cache K = none := by
  rcases dictGet_set_cache_ne cm s loc d now K hK with hc | hc
  · rw [hc]
    exact h
  · exact hc

theorem dictGet_dictSet_present {α : Type} (b : List (String × α))
    (n K : String) (v : α) (h : ∃ p, dictGet b K = some p) :
    ∃ q, dictGet (dictSet b n v) K = some q := by
  by_cases hK : K = n
  · exact ⟨v, by rw [hK]; exact dictGet_dictSet_self _ _ _⟩
  · obtain ⟨p, hp⟩ := h
    exact ⟨p, by rw [dictGet_dictSet_ne _ _ _ _ hK]; exact hp⟩

theorem fetchLoop_bundle_present (srcs : List (String × SourceFetch))
    (loc : Location) (now : Int) :
    ∀ (L : List String) (cm : CacheManager) (b : List (String × Payload))
      (K : String), (∃ p, dictGet b K = some p) →
      ∃ q, dictGet (fetchLoop srcs loc now L cm b).2 K = some q := by
  intro L
  induction L with
  | nil =>
    intro cm b K h
    simpa only [fetchLoop] using h
  | cons name rest ih =>
    intro cm b K h
    rcases hr : dictGet srcs name with _ | f
    · simp only [fetchLoop, hr]
      exact ih cm b K h
    · rcases hg : CacheManager.get cm name loc now with ⟨cm1, copt⟩
      rcases copt with _ | cached
      · cases hf : f loc with
        | error e =>
          simp only [fetchLoop, hr, hg, hf]
          exact ih cm1 _ K (dictGet_dictSet_present b name K _ h)
        | ok r =>
          simp only [fetchLoop, hr, hg, hf]
          exact ih _ _ K (dictGet_dictSet_present b name K _ h)
      · simp only [fetchLoop, hr, hg]
        exact ih cm1 _ K (dictGet_dictSet_present b name K _ h)

theorem fetchLoop_registered_present (srcs : List (String × SourceFetch))
    (loc : Location) (now : Int) :
    ∀ (L : List String) (cm : CacheManager) (b : List (String × Payload))
      (s' : String) (f' : SourceFetch), s' ∈ L →
      dictGet srcs s' = some f' →
      ∃ p, dictGet (fetchLoop srcs loc now L cm b).2 s' = some p := by
  intro L
  induction L with
  | nil =>
    intro cm b s' f' hmem
    cases hmem
  | cons name rest ih =>
    intro cm b s' f' hmem hreg
    by_cases hname : name = s'
    · rw [hname]
      rcases hg : CacheManager.get cm s' loc now with ⟨cm1, copt⟩
      rcases copt with _ | cached
      · cases hf : f' loc with
        | error e =>
          simp only [fetchLoop, hreg, hg, hf]
          exact fetchLoop_bundle_present srcs loc now rest cm1 _ s'
            ⟨_, dictGet_dictSet_self _ _ _⟩
        | ok r =>
          simp only [fetchLoop, hreg, hg, hf]
          exact fetchLoop_bundle_present srcs loc now rest _ _ s'
            ⟨_, dictGet_dictSet_self _ _ _⟩
      · simp only [fetchLoop, hreg, hg]
        exact fetchLoop_bundle_present srcs loc now rest cm1 _ s'
          ⟨_, dictGet_dictSet_self _ _ _⟩
    · have hmem' : s' ∈ rest := by
        rcases List.mem_cons.mp hmem with hh | hh
        · exact absurd hh.symm hname
        · exact hh
      rcases hr : dictGet srcs name with _ | f
      · simp only [fetchLoop, hr]
        exact ih cm b s' f' hmem' hreg
      · rcases hg : CacheManager.get cm name loc now with ⟨cm1, copt⟩
        rcases copt with _ | cached
        · cases hf : f loc with
          | error e =>
            simp only [fetchLoop, hr, hg, hf]
            exact ih cm1 _ s' f' hmem' hreg
          | ok r =>
            simp only [fetchLoop, hr, hg, hf]
            exact ih _ _ s' f' hmem' hreg
        · simp only [fetchLoop, hr, hg]
          exact ih cm1 _ s' f' hmem' hreg

theorem fetchLoop_post_preserved (srcs : List (String × SourceFetch))
    (loc : Location) (now : Int) (s : String) (f : SourceFetch) (e : String)
    (hreg : dictGet srcs s = some f) (hf : f loc = Except.error e) :
    ∀ (L : List String) (cm : CacheManager) (b : List (String × Payload)),
      dictGet cm.cache (CacheManager.make_key s loc.grid_hash) = none →
      dictGet b s = some (errorPayload e) →
      dictGet (fetchLoop srcs loc now L cm b).1.cache
        (CacheManager.make_key s loc.grid_hash) = none ∧
      dictGet (fetchLoop srcs loc now L cm b).2 s = some (errorPayload e) := by
  intro L
  induction L with
  | nil =>
    intro cm b h1 h2
    exact ⟨h1, h2⟩
  | cons name rest ih =>
    intro cm b h1 h2
    by_cases hname : name = s
    · rw [hname]
      simp only [fetchLoop, hreg, CacheManager.get, h1, hf]
      exact ih _ _ h1 (dictGet_dictSet_self _ _ _)
    · have hne : CacheManager.make_key s loc.grid_hash ≠
          CacheManager.make_key name loc.grid_hash :=
        fun hk => hname (make_key_inj s name loc.grid_hash hk).symm
      have hbs : ∀ v, dictGet (dictSet b name v) s = some (errorPayload e) := by
        intro v
        rw [dictGet_dictSet_ne _ _ _ _ (fun hsn => hname hsn.symm)]
        exact h2
      rcases hr : dictGet srcs name with _ | fn
      · simp only [fetchLoop, hr]
        exact ih cm b h1 h2
      · rcases hg : CacheManager.get cm name loc now with ⟨cm1, copt⟩
        have h1g : dictGet cm1.cache
            (CacheManager.make_key s loc.grid_hash) = none := by
          have := absent_get cm name loc now
            (CacheManager.make_key s loc.grid_hash) h1
          rw [hg] at this
          exact this
        rcases copt with _ | cached
        · cases hfn : fn loc with
          | error e2 =>
            simp only [fetchLoop, hr, hg, hfn]
            exact ih cm1 _ h1g (hbs _)
          | ok r =>
            have h1s := absent_set cm1 name loc r now
              (CacheManager.make_key s loc.grid_hash) hne h1g
            simp only [fetchLoop, hr, hg, hfn]
            exact ih _ _ h1s (hbs _)
        · simp only [fetchLoop, hr, hg]
          exact ih cm1 _ h1g (hbs _)

theorem fetchLoop_error_main (srcs : List (String × SourceFetch))
    (loc : Location) (now : Int) (s : String) (f : SourceFetch) (e : String)
    (hreg : dictGet srcs s = some f) (hf : f loc = Except.error e) :
    ∀ (L : List String) (cm : CacheManager) (b : List (String × Payload)),
      NoFreshEntry cm (CacheManager.make_key s loc.grid_hash) now → s ∈ L →
      dictGet (fetchLoop srcs loc now L cm b).1.cache
        (CacheManager.make_key s loc.grid_hash) = none ∧
      dictGet (fetchLoop srcs loc now L cm b).2 s = some (errorPayload e) := by
  intro L
  induction L with
  | nil =>
    intro cm b _ hmem
    cases hmem
  | cons name rest ih =>
    intro cm b hnf hmem
    by_cases hname : name = s
    · rw [hname]
      rcases he0 : dictGet cm.cache (CacheManager.make_key s loc.grid_hash)
          with _ | e0
      · simp only [fetchLoop, hreg, CacheManager.get, he0, hf]
        exact fetchLoop_post_preserved srcs loc now s f e hreg hf rest _ _
          he0 (dictGet_dictSet_self _ _ _)
      · have hexp := hnf e0 he0
        simp only [fetchLoop, hreg, CacheManager.get, he0,
          if_neg (not_lt.mpr hexp), hf]
        exact fetchLoop_post_preserved srcs loc now s f e hreg hf rest _ _
          (dictGet_dictRemove_self _ _) (dictGet_dictSet_self _ _ _)
    · have hmem' : s ∈ rest := by
        rcases List.mem_cons.mp hmem with hh | hh
        · exact absurd hh.symm hname
        · exact hh
      rcases hr : dictGet srcs name with _ | fn
      · simp only [fetchLoop, hr]
        exact ih cm b hnf hmem'
      · rcases hg : CacheManager.get cm name loc now with ⟨cm1, copt⟩
        have hnf1 : NoFreshEntry cm1
            (CacheManager.make_key s loc.grid_hash) now := by
          have := noFresh_get cm name loc now
            (CacheManager.make_key s loc.grid_hash) hnf
          rw [hg] at this
          exact this
        rcases copt with _ | cached
        · cases hfn : fn loc with
          | error e2 =>
            simp only [fetchLoop, hr, hg, hfn]
            exact ih cm1 _ hnf1 hmem'
          | ok r =>
            have hne : CacheManager.make_key s loc.grid_hash ≠
                CacheManager.make_key name loc.grid_hash :=
              fun hk => hname (make_key_inj s name loc.grid_hash hk).symm
            have hnf2 := noFresh_set cm1 name loc r now
              (CacheManager.make_key s loc.grid_hash) hne hnf1
            simp only [fetchLoop, hr, hg, hfn]
            exact ih _ _ hnf2 hmem'
        · simp only [fetchLoop, hr, hg]
          exact ih cm1 _ hnf1 hmem'

/-! ## Claim C2 — per-source failure isolation in `fetch_data` -/

/-- C2: when a registered source's fetch raises (the source is consulted
— no fresh cache entry short-circuits it — and its fetch returns an
error), `fetch_data` records `{"error": <message>}` under that source's
key, no exception escapes (`fetch_data` returns a bundle
unconditionally), and every other requested registered source still has
a payload in the returned bundle. -/
theorem fetch_data_isolates_source_failure (eng : PollinatorEngine)
    (loc : Location) (L : List String) (now : Int) (s : String)
    (f : SourceFetch) (e : String)
    (hreg : dictGet eng.sources s = some f)
    (hf : f loc = Except.error e)
    (hnf : NoFreshEntry eng.cache (CacheManager.make_key s loc.grid_hash) now)
    (hmem : s ∈ L) :
    dictGet (eng.fetch_data loc (some L) now).2.entries s =
      some (errorPayload e) ∧
    ∀ s' ∈ L, ∀ f', dictGet eng.sources s' = some f' →
      ∃ p, dictGet (eng.fetch_data loc (some L) now).2.entries s' = some p := by
  have hLne : ¬ (L = []) := by
    intro h
    rw [h] at hmem
    cases hmem
  constructor
  · have := fetchLoop_error_main eng.sources loc now s f e hreg hf L
      eng.cache [] hnf hmem
    simpa only [PollinatorEngine.fetch_data, if_neg hLne] using this.2
  · intro s' hmem' f' hreg'
    have := fetchLoop_registered_present eng.sources loc now L
      eng.cache [] s' f' hmem' hreg'
    simpa only [PollinatorEngine.fetch_data, if_neg hLne] using this

/-- An engine with one healthy and one failing source and a cold cache. -/
def engineTwoSources : PollinatorEngine :=
  { sources := [("good", fun _ => Except.ok [("n", "1")]),
                ("bad", fun _ => Except.error "boom")],
    algorithms := [],
    cache := {} }

/-- C2 witness: on `engineTwoSources`, requesting `["bad", "good"]`
records the error under `"bad"` and still delivers a payload for every
requested registered source. -/
theorem fetch_data_isolates_source_failure_witness :
    dictGet (engineTwoSources.fetch_data
        { lat := 0, lng := 0, grid_hash := "g" }
        (some ["bad", "good"]) 0).2.entries "bad" =
      some (errorPayload "boom") ∧
    ∀ s' ∈ ["bad", "good"], ∀ f',
      dictGet engineTwoSources.sources s' = some f' →
      ∃ p, dictGet (engineTwoSources.fetch_data
          { lat := 0, lng := 0, grid_hash := "g" }
          (some ["bad", "good"]) 0).2.entries s' = some p :=
  fetch_data_isolates_source_failure engineTwoSources
    { lat := 0, lng := 0, grid_hash := "g" } ["bad", "good"] 0 "bad"
    (fun _ => Except.error "boom") "boom" rfl rfl
    (fun _ h => by simp [dictGet] at h) (by simp)

/-! ## Claim C9 — failed fetches are never written to the cache -/

/-- An engine whose only source fails, with an expired cache entry for
that source's key (`ttl_hours = 1`, written at time 0, read at 36000 s). -/
def engineExpiredEntry : PollinatorEngine :=
  { sources := [("bad", fun _ => Except.error "boom")],
    algorithms := [],
    cache := { ttl_hours := 1, max_entries := 1000,
               cache := [("bad:g", { data := [("v", "1")], timestamp := 0 })],
               stats := {} } }

/-- C9 counterexample: the claim's "leaves the cache entry exactly as it
was" fails — with an expired entry present, `fetch_data`'s own cache
lookup deletes the entry before the fetch raises, so the entry for
`bad:g` goes from present to absent even though the fetch failed. -/
theorem fetch_failure_cache_entry_changed :
    dictGet engineExpiredEntry.cache.cache "bad:g" =
      some { data := [("v", "1")], timestamp := 0 } ∧
    dictGet (engineExpiredEntry.fetch_data
        { lat := 0, lng := 0, grid_hash := "g" }
        (some ["bad"]) 36000).1.cache.cache "bad:g" = none := by
  exact ⟨rfl, rfl⟩

/-- C9 (amended): when a consulted source's fetch raises, nothing is
stored under its key — after the call the key is absent (an expired
entry is removed by the lookup itself, an absent key stays absent) — and
the error payload appears only in the returned bundle, so a later
`fetch_data` re-invokes the source's fetch instead of serving the error
from cache. -/
theorem fetch_data_failed_fetch_not_cached (eng : PollinatorEngine)
    (loc : Location) (L : List String) (now : Int) (s : String)
    (f : SourceFetch) (e : String)
    (hreg : dictGet eng.sources s = some f)
    (hf : f loc = Except.error e)
    (hnf : NoFreshEntry eng.cache (CacheManager.make_key s loc.grid_hash) now)
    (hmem : s ∈ L) :
    dictGet (eng.fetch_data loc (some L) now).1.cache.cache
      (CacheManager.make_key s loc.grid_hash) = none ∧
    dictGet (eng.fetch_data loc (some L) now).2.entries s =
      some (errorPayload e) := by
  have hLne : ¬ (L = []) := by
    intro h
    rw [h] at hmem
    cases hmem
  have := fetchLoop_error_main eng.sources loc now s f e hreg hf L
    eng.cache [] hnf hmem
  constructor
  · simpa only [PollinatorEngine.fetch_data, if_neg hLne] using this.1
  · simpa only [PollinatorEngine.fetch_data, if_neg hLne] using this.2

/-- An engine whose only source fails, with a cold cache. -/
def engineFlakySource : PollinatorEngine :=
  { sources := [("flaky", fun _ => Except.error "down")],
    algorithms := [],
    cache := {} }

/-- C9 (amended) witness: after the failed fetch on `engineFlakySource`
the key stays absent from the cache while the bundle holds the error. -/
theorem fetch_data_failed_fetch_not_cached_witness :
    dictGet (engineFlakySource.fetch_data
        { lat := 0, lng := 0, grid_hash := "h" }
        (some ["flaky"]) 5).1.cache.cache
      (CacheManager.make_key "flaky" "h") = none ∧
    dictGet (engineFlakySource.fetch_data
        { lat := 0, lng := 0, grid_hash := "h" }
        (some ["flaky"]) 5).2.entries "flaky" = some (errorPayload "down") :=
  fetch_data_failed_fetch_not_cached engineFlakySource
    { lat := 0, lng := 0, grid_hash := "h" } ["flaky"] 5 "flaky"
    (fun _ => Except.error "down") "down" rfl rfl
    (fun _ h => by simp [dictGet] at h) (by simp)
